import Mathlib

/-!
Verification of the ChatHub messaging core against its SQL migrations and
client code.  The durable relations (`chats`, `chat_members`, `messages`,
`friend_requests`, `friendships`, `typing_status`, `group_invitations`) are
embedded as lists of rows inside a single `DB` state, and each operation is
translated from the SQL function / RLS policy / TypeScript handler that
implements it.  UUID keys are embedded as natural numbers: chat ids are drawn
from a fresh counter `nextId` (only freshness of a generated UUID matters),
while message ids are passed in explicitly because `gen_random_uuid()` gives
no ordering guarantee.
-/

deriving instance DecidableEq for Except

namespace ChatHub

abbrev UserId := Nat
abbrev ChatId := Nat
abbrev MsgId := Nat

/-- Chat kind, from the `chats.type` column: CHECK (type IN ('direct', 'group')). -/
inductive ChatType
  | direct
  | group
  deriving DecidableEq

/-- A row of the `chats` table (id, type, name, description, created_by). -/
structure Chat where
  id : ChatId
  ctype : ChatType
  name : Option String := none
  description : Option String := none
  createdBy : Option UserId := none
  deriving DecidableEq

/-- A row of the `chat_members` table; UNIQUE(chat_id, user_id) in the schema. -/
structure ChatMember where
  chatId : ChatId
  userId : UserId
  role : String
  deriving DecidableEq

/-- A row of the `messages` table (20240321000026_fix_messages_table.sql):
id, chat_id, sender_id, content, created_at. -/
structure Message where
  id : MsgId
  chatId : ChatId
  senderId : UserId
  content : String
  createdAt : Nat
  deriving DecidableEq

/-- A row of the `friend_requests` table; status is constrained by
CHECK (status IN ('pending', 'accepted', 'declined')). -/
structure FriendRequest where
  id : Nat
  senderId : UserId
  receiverId : UserId
  status : String
  deriving DecidableEq

/-- A row of the `friendships` table; UNIQUE(user1_id, user2_id). -/
structure Friendship where
  user1 : UserId
  user2 : UserId
  deriving DecidableEq

/-- A row of the ephemeral `typing_status` table; UNIQUE(chat_id, user_id). -/
structure TypingRow where
  chatId : ChatId
  userId : UserId
  isTyping : Bool
  lastUpdated : Nat
  deriving DecidableEq

/-- A row of the `group_invitations` table; status defaults to 'pending'. -/
structure GroupInvitation where
  chatId : ChatId
  inviterId : UserId
  inviteeId : UserId
  status : String
  deriving DecidableEq

/-- The database state: the durable relations plus the ephemeral
`typing_status` relation, together with the fresh-id counter that stands in
for UUID generation on chats. -/
structure DB where
  nextId : Nat
  chats : List Chat
  chatMembers : List ChatMember
  messages : List Message
  friendRequests : List FriendRequest
  friendships : List Friendship
  typingStatus : List TypingRow
  groupInvitations : List GroupInvitation
  deriving DecidableEq

/-- The empty database. -/
def emptyDB : DB := ⟨0, [], [], [], [], [], [], []⟩

/-- EXISTS (SELECT 1 FROM chat_members WHERE chat_id = c AND user_id = u),
as a predicate on the member rows. -/
def memberIn (rows : List ChatMember) (c : ChatId) (u : UserId) : Bool :=
  rows.any fun m => decide (m.chatId = c ∧ m.userId = u)

/-- Membership with role 'admin' (the admin INSERT policy on chat_members). -/
def adminIn (rows : List ChatMember) (c : ChatId) (u : UserId) : Bool :=
  rows.any fun m => decide (m.chatId = c ∧ m.userId = u ∧ m.role = "admin")

/-- The scan of `create_direct_chat` (src/unnamed/part_009): a chat row of
type 'direct' joined with chat_members rows for both users. -/
def directChatPred (rows : List ChatMember) (u1 u2 : UserId) (c : Chat) : Bool :=
  decide (c.ctype = ChatType.direct) && memberIn rows c.id u1 && memberIn rows c.id u2

/-- SELECT c.id ... LIMIT 1 of `create_direct_chat`: the first direct chat
containing both users. -/
def findDirectChat (db : DB) (u1 u2 : UserId) : Option ChatId :=
  (db.chats.find? (directChatPred db.chatMembers u1 u2)).map Chat.id

/-- The creation branch of `create_direct_chat`: insert a fresh 'direct' chat
row and one member row per user (both with role 'member', per part_009). -/
def newDirectChatDb (db : DB) (u1 u2 : UserId) : DB :=
  { db with
    nextId := db.nextId + 1
    chats := db.chats ++ [{ id := db.nextId, ctype := ChatType.direct }]
    chatMembers := db.chatMembers ++
      [{ chatId := db.nextId, userId := u1, role := "member" },
       { chatId := db.nextId, userId := u2, role := "member" }] }

/-- `create_direct_chat(p_user1_id, p_user2_id)` (src/unnamed/part_009):
return the first existing direct chat containing both users, else insert a
new chat plus its two member rows and return the new id.  For distinct users
and a fresh generated id the UNIQUE(chat_id, user_id) constraint cannot fire,
so the straight-line insert models the SQL function. -/
def create_direct_chat (db : DB) (u1 u2 : UserId) : ChatId × DB :=
  match findDirectChat db u1 u2 with
  | some cid => (cid, db)
  | none => (db.nextId, newDirectChatDb db u1 u2)

/-- Freshness of the UUID counter: every chat id and member-row chat id in the
state was generated earlier, i.e. is below `nextId`. -/
def freshIds (db : DB) : Prop :=
  (∀ c ∈ db.chats, c.id < db.nextId) ∧ (∀ m ∈ db.chatMembers, m.chatId < db.nextId)

theorem memberIn_append (l1 l2 : List ChatMember) (c : ChatId) (u : UserId) :
    memberIn (l1 ++ l2) c u = (memberIn l1 c u || memberIn l2 c u) := by
  simp [memberIn, List.any_append]

theorem directChatPred_stable (db : DB) (u1 u2 : UserId) (c : Chat)
    (hc : c ∈ db.chats) (hfresh : freshIds db) :
    directChatPred (newDirectChatDb db u1 u2).chatMembers u1 u2 c =
      directChatPred db.chatMembers u1 u2 c := by
  have hlt : c.id < db.nextId := hfresh.1 c hc
  have hne : c.id ≠ db.nextId := Nat.ne_of_lt hlt
  have hne' : db.nextId ≠ c.id := fun h => hne h.symm
  simp only [newDirectChatDb, directChatPred, memberIn_append]
  have h1 : memberIn [{ chatId := db.nextId, userId := u1, role := "member" },
      { chatId := db.nextId, userId := u2, role := "member" }] c.id u1 = false := by
    simp [memberIn, hne']
  have h2 : memberIn [{ chatId := db.nextId, userId := u1, role := "member" },
      { chatId := db.nextId, userId := u2, role := "member" }] c.id u2 = false := by
    simp [memberIn, hne']
  rw [h1, h2, Bool.or_false, Bool.or_false]

theorem findDirectChat_after_create (db : DB) (u1 u2 : UserId)
    (hfresh : freshIds db) (hnone : findDirectChat db u1 u2 = none) :
    findDirectChat (newDirectChatDb db u1 u2) u1 u2 = some db.nextId := by
  have hfind : db.chats.find? (directChatPred db.chatMembers u1 u2) = none := by
    simpa [findDirectChat] using hnone
  have hall : ∀ c ∈ db.chats, ¬ directChatPred db.chatMembers u1 u2 c = true :=
    List.find?_eq_none.mp hfind
  have hall' : ∀ c ∈ db.chats,
      ¬ directChatPred (newDirectChatDb db u1 u2).chatMembers u1 u2 c = true := by
    intro c hc
    rw [directChatPred_stable db u1 u2 c hc hfresh]
    exact hall c hc
  have hnew : directChatPred (newDirectChatDb db u1 u2).chatMembers u1 u2
      { id := db.nextId, ctype := ChatType.direct } = true := by
    simp [newDirectChatDb, directChatPred, memberIn_append, memberIn]
  have hchats : (newDirectChatDb db u1 u2).chats =
      db.chats ++ [{ id := db.nextId, ctype := ChatType.direct }] := rfl
  simp only [findDirectChat, hchats, List.find?_append,
    List.find?_eq_none.mpr hall', Option.none_or]
  simp [hnew]

/-- C1: `create_direct_chat` is idempotent.  If a direct chat containing both
(distinct) users already exists, the call returns its id and leaves the state
unchanged; when none exists, exactly one chat row is created; and an
immediately repeated call returns the same chat id and creates nothing. -/
theorem create_direct_chat_idempotent (db : DB) (u1 u2 : UserId) (cid : ChatId)
    (_hne : u1 ≠ u2) (hfresh : freshIds db) :
    (findDirectChat db u1 u2 = some cid → create_direct_chat db u1 u2 = (cid, db)) ∧
    (findDirectChat db u1 u2 = none →
      ((create_direct_chat db u1 u2).2).chats.length = db.chats.length + 1) ∧
    create_direct_chat ((create_direct_chat db u1 u2).2) u1 u2 =
      ((create_direct_chat db u1 u2).1, (create_direct_chat db u1 u2).2) := by
  refine ⟨?_, ?_, ?_⟩
  · intro h
    simp [create_direct_chat, h]
  · intro h
    simp [create_direct_chat, h, newDirectChatDb]
  · cases hf : findDirectChat db u1 u2 with
    | some c =>
        simp [create_direct_chat, hf]
    | none =>
        have hagain := findDirectChat_after_create db u1 u2 hfresh hf
        simp [create_direct_chat, hf, hagain]

/-- Witness for `create_direct_chat_idempotent`: two distinct users on the
empty database. -/
theorem create_direct_chat_idempotent_witness :
    (findDirectChat emptyDB 1 2 = some 0 → create_direct_chat emptyDB 1 2 = (0, emptyDB)) ∧
    (findDirectChat emptyDB 1 2 = none →
      ((create_direct_chat emptyDB 1 2).2).chats.length = emptyDB.chats.length + 1) ∧
    create_direct_chat ((create_direct_chat emptyDB 1 2).2) 1 2 =
      ((create_direct_chat emptyDB 1 2).1, (create_direct_chat emptyDB 1 2).2) :=
  create_direct_chat_idempotent emptyDB 1 2 0 (by decide) (by simp [freshIds, emptyDB])

/-! Membership insertion (`chat_members` INSERT under row-level security).
The effective INSERT policies are "Users can insert their own chat
memberships" (WITH CHECK auth.uid() = user_id, 20240321000022) and "Users can
add members to chats they admin" (WITH CHECK chat_id IN the caller's
admin chats, initial schema); RLS admits a row if any policy passes, and the
schema enforces UNIQUE(chat_id, user_id). -/

/-- Database-level errors surfaced by the embedded operations.  These mirror
the errors the Postgres layer can actually raise; note there is no
capacity-exceeded error anywhere in the schema or functions. -/
inductive DbError
  | forbidden
  | conflictUnique
  | checkViolation
  | notFound
  deriving DecidableEq

/-- The RLS INSERT check on `chat_members` for a caller inserting `row`. -/
def memberInsertAllowed (rows : List ChatMember) (caller : UserId) (row : ChatMember) : Bool :=
  decide (row.userId = caller) || adminIn rows row.chatId caller

/-- INSERT INTO chat_members under RLS: rejected when no policy passes,
rejected on a duplicate (chat_id, user_id) pair, otherwise appended. -/
def addMember (db : DB) (caller : UserId) (c : ChatId) (u : UserId) (role : String) :
    Except DbError DB :=
  if memberInsertAllowed db.chatMembers caller { chatId := c, userId := u, role := role } then
    if memberIn db.chatMembers c u then
      Except.error DbError.conflictUnique
    else
      Except.ok { db with chatMembers := db.chatMembers ++ [{ chatId := c, userId := u, role := role }] }
  else
    Except.error DbError.forbidden

/-- Number of member rows of a chat. -/
def memberCount (db : DB) (c : ChatId) : Nat :=
  (db.chatMembers.filter fun m => decide (m.chatId = c)).length

/-- A direct chat with its two members, exactly the state that
`create_direct_chat` of 20240321000008_materialized_view.sql produces
(user 1 with role 'admin', user 2 with role 'member'). -/
def dbDirectFull : DB :=
  ⟨1, [{ id := 0, ctype := ChatType.direct }],
   [{ chatId := 0, userId := 1, role := "admin" },
    { chatId := 0, userId := 2, role := "member" }], [], [], [], [], []⟩

/-- C2 counterexample: chat 0 is direct and already has two members, yet the
admin member 1 successfully inserts a third member row for user 3 — the
insert is not rejected, no capacity error exists, and the direct chat ends up
with three members. -/
theorem direct_chat_capacity_violated :
    dbDirectFull.chats = [{ id := 0, ctype := ChatType.direct }] ∧
    memberCount dbDirectFull 0 = 2 ∧
    addMember dbDirectFull 1 0 3 "member" =
      Except.ok { dbDirectFull with chatMembers := dbDirectFull.chatMembers ++
        [{ chatId := 0, userId := 3, role := "member" }] } ∧
    memberCount { dbDirectFull with chatMembers := dbDirectFull.chatMembers ++
        [{ chatId := 0, userId := 3, role := "member" }] } 0 = 3 := by
  decide

/-- C2 amended: membership insertion succeeds exactly when an RLS policy
passes and the (chat, user) pair is new; the member count of the target chat
then grows by one — no chat-kind or capacity condition is ever consulted. -/
theorem addMember_checks_policy_only (db : DB) (caller : UserId) (c : ChatId)
    (u : UserId) (role : String) (db' : DB)
    (h : addMember db caller c u role = Except.ok db') :
    memberInsertAllowed db.chatMembers caller { chatId := c, userId := u, role := role } = true ∧
    memberIn db.chatMembers c u = false ∧
    db'.chatMembers = db.chatMembers ++ [{ chatId := c, userId := u, role := role }] ∧
    memberCount db' c = memberCount db c + 1 := by
  by_cases hp : memberInsertAllowed db.chatMembers caller
      { chatId := c, userId := u, role := role } = true
  · by_cases hm : memberIn db.chatMembers c u = true
    · simp [addMember, hp, hm] at h
    · have hm' : memberIn db.chatMembers c u = false := by
        cases hmm : memberIn db.chatMembers c u
        · rfl
        · exact absurd hmm hm
      have hdb : db' = { db with chatMembers := db.chatMembers ++
          [{ chatId := c, userId := u, role := role }] } := by
        simp [addMember, hp, hm'] at h
        exact h.symm
      subst hdb
      refine ⟨hp, hm', rfl, ?_⟩
      simp [memberCount, List.filter_append]
  · have hp' : memberInsertAllowed db.chatMembers caller
        { chatId := c, userId := u, role := role } = false := by
      cases hpp : memberInsertAllowed db.chatMembers caller
          { chatId := c, userId := u, role := role }
      · rfl
      · exact absurd hpp hp
    simp [addMember, hp'] at h

/-- Witness for `addMember_checks_policy_only` at the concrete three-member
insertion. -/
theorem addMember_checks_policy_only_witness :
    memberInsertAllowed dbDirectFull.chatMembers 1
      { chatId := 0, userId := 3, role := "member" } = true ∧
    memberIn dbDirectFull.chatMembers 0 3 = false ∧
    ({ dbDirectFull with chatMembers := dbDirectFull.chatMembers ++
        [{ chatId := 0, userId := 3, role := "member" }] } : DB).chatMembers =
      dbDirectFull.chatMembers ++ [{ chatId := 0, userId := 3, role := "member" }] ∧
    memberCount { dbDirectFull with chatMembers := dbDirectFull.chatMembers ++
        [{ chatId := 0, userId := 3, role := "member" }] } 0 = memberCount dbDirectFull 0 + 1 :=
  addMember_checks_policy_only dbDirectFull 1 0 3 "member" _ (by decide)

/-! Message append: the INSERT policy of
20240321000026_fix_messages_table.sql requires the membership-cache row for
(chat, caller) and sender_id = auth.uid().  The cache
`chat_membership_cache` is refreshed by a per-statement trigger on
chat_members (20240321000025), so in this sequential model it coincides with
the live chat_members rows.  The generated uuid for the message is passed in
as `mid`. -/

/-- INSERT INTO messages under the RLS WITH CHECK of
"Users can insert messages in their chats". -/
def sendMessage (db : DB) (caller sender : UserId) (c : ChatId) (content : String)
    (now : Nat) (mid : MsgId) : Except DbError DB :=
  if memberIn db.chatMembers c caller && decide (sender = caller) then
    Except.ok { db with messages := db.messages ++
      [{ id := mid, chatId := c, senderId := sender, content := content, createdAt := now }] }
  else
    Except.error DbError.forbidden

/-- C3: appending a message fails whenever the sender is not a current member
of the chat, and on success the stored row's sender is the authenticated
caller and was a member at append time. -/
theorem sendMessage_requires_membership (db : DB) (caller sender : UserId) (c : ChatId)
    (content : String) (now : Nat) (mid : MsgId) (db' : DB) :
    (memberIn db.chatMembers c sender = false →
      sendMessage db caller sender c content now mid = Except.error DbError.forbidden) ∧
    (sendMessage db caller sender c content now mid = Except.ok db' →
      sender = caller ∧ memberIn db.chatMembers c sender = true ∧
      db'.messages = db.messages ++
        [{ id := mid, chatId := c, senderId := sender, content := content, createdAt := now }]) := by
  constructor
  · intro hnm
    by_cases hs : sender = caller
    · subst hs
      simp [sendMessage, hnm]
    · simp [sendMessage, hs]
  · intro hok
    by_cases hs : sender = caller
    · subst hs
      by_cases hm : memberIn db.chatMembers c sender = true
      · refine ⟨rfl, hm, ?_⟩
        simp [sendMessage, hm] at hok
        rw [← hok]
      · have hm' : memberIn db.chatMembers c sender = false := by
          cases hmm : memberIn db.chatMembers c sender
          · rfl
          · exact absurd hmm hm
        simp [sendMessage, hm'] at hok
    · simp [sendMessage, hs] at hok

/-- Witness for `sendMessage_requires_membership`: member 1 of the full direct
chat sends a message as themselves. -/
theorem sendMessage_requires_membership_witness :
    (memberIn dbDirectFull.chatMembers 0 1 = false →
      sendMessage dbDirectFull 1 1 0 "hello" 7 5 = Except.error DbError.forbidden) ∧
    (sendMessage dbDirectFull 1 1 0 "hello" 7 5 =
        Except.ok { dbDirectFull with messages := dbDirectFull.messages ++
          [{ id := 5, chatId := 0, senderId := 1, content := "hello", createdAt := 7 }] } →
      (1 : UserId) = 1 ∧ memberIn dbDirectFull.chatMembers 0 1 = true ∧
      ({ dbDirectFull with messages := dbDirectFull.messages ++
          [{ id := 5, chatId := 0, senderId := 1, content := "hello", createdAt := 7 }] } : DB).messages =
        dbDirectFull.messages ++
          [{ id := 5, chatId := 0, senderId := 1, content := "hello", createdAt := 7 }]) :=
  sendMessage_requires_membership dbDirectFull 1 1 0 "hello" 7 5 _

/-! Message deletion: the client (`deleteMessage` in ChatWindow.tsx) issues
DELETE FROM messages WHERE id = messageId AND sender_id = user.id, and the
RLS policy "Users can delete their own messages" additionally filters rows
to sender_id = auth.uid().  A DELETE whose filter matches no visible row
deletes nothing and reports success, so the operation is total. -/

/-- DELETE FROM messages filtered by id and by the requesting user, as the
client and the RLS policy together compute it. -/
def deleteMessage (db : DB) (caller : UserId) (mid : MsgId) : DB :=
  { db with messages := db.messages.filter fun m =>
      !(decide (m.id = mid) && decide (m.senderId = caller)) }

/-- A store holding one message with id 0 sent by user 1. -/
def dbOneMessage : DB :=
  ⟨1, [{ id := 0, ctype := ChatType.direct }],
   [{ chatId := 0, userId := 1, role := "member" },
    { chatId := 0, userId := 2, role := "member" }],
   [{ id := 0, chatId := 0, senderId := 1, content := "hello", createdAt := 3 }],
   [], [], [], []⟩

/-- C4 counterexample: user 2 asks to delete user 1's message; the call
completes without any error value (the operation is total and returns the
store) and the message is still present — a silent no-op, not a Forbidden
failure. -/
theorem deleteMessage_nonsender_silent_noop :
    deleteMessage dbOneMessage 2 0 = dbOneMessage ∧
    ({ id := 0, chatId := 0, senderId := 1, content := "hello", createdAt := 3 } : Message)
      ∈ dbOneMessage.messages := by
  decide

/-- C4 amended: a stored message survives a delete call exactly when it is
not the (id, requester-as-sender) target; the sender's own delete removes the
message, while any other requester's call leaves it in place without an
error. -/
theorem deleteMessage_removes_iff_sender (db : DB) (caller : UserId) (mid : MsgId)
    (m : Message) (hm : m ∈ db.messages) :
    m ∈ (deleteMessage db caller mid).messages ↔ ¬(m.id = mid ∧ m.senderId = caller) := by
  simp only [deleteMessage, List.mem_filter, hm, true_and, Bool.not_eq_true',
    Bool.and_eq_false_iff, decide_eq_false_iff_not, not_and]
  constructor
  · intro h
    rcases h with h | h
    · exact fun hid => absurd hid h
    · exact fun _ => h
  · intro h
    by_cases hid : m.id = mid
    · exact Or.inr (h hid)
    · exact Or.inl hid

/-- Witness for `deleteMessage_removes_iff_sender`: the sender deletes their
own message. -/
theorem deleteMessage_removes_iff_sender_witness :
    ({ id := 0, chatId := 0, senderId := 1, content := "hello", createdAt := 3 } : Message)
        ∈ (deleteMessage dbOneMessage 1 0).messages ↔
      ¬(({ id := 0, chatId := 0, senderId := 1, content := "hello", createdAt := 3 } : Message).id = 0 ∧
        ({ id := 0, chatId := 0, senderId := 1, content := "hello", createdAt := 3 } : Message).senderId = 1) :=
  deleteMessage_removes_iff_sender dbOneMessage 1 0
    { id := 0, chatId := 0, senderId := 1, content := "hello", createdAt := 3 } (by decide)

/-! Message listing: both the initial fetch and the 1-second poll in
ChatWindow.tsx run
SELECT ... FROM messages WHERE chat_id = chatId ORDER BY created_at ASC —
created_at is the only sort key; no secondary ordering on id is requested,
and message ids are random UUIDs.  The ORDER BY is embedded as a stable
insertion sort on created_at (one of the orders the store may return). -/

/-- Comparison used by ORDER BY created_at ASC. -/
def msgLe (a b : Message) : Prop := a.createdAt ≤ b.createdAt

instance : DecidableRel msgLe := fun a b => Nat.decLe a.createdAt b.createdAt

instance : IsTotal Message msgLe := ⟨fun a b => Nat.le_total a.createdAt b.createdAt⟩

instance : IsTrans Message msgLe := ⟨fun _ _ _ h1 h2 => Nat.le_trans h1 h2⟩

/-- The message listing of fetchMessages / pollForNewMessages: the chat's
messages ordered by created_at ascending. -/
def listMessages (db : DB) (c : ChatId) : List Message :=
  (db.messages.filter fun m => decide (m.chatId = c)).insertionSort msgLe

/-- The ordering the claim asserts: (created_at, id) lexicographically
ascending. -/
def sortedByCreatedAtId (l : List Message) : Prop :=
  l.Pairwise fun a b =>
    a.createdAt < b.createdAt ∨ (a.createdAt = b.createdAt ∧ a.id ≤ b.id)

/-- Two messages of chat 0 committed in this order with equal created_at;
their random UUID ids happen to descend (5 then 3). -/
def dbTiedMessages : DB :=
  ⟨1, [{ id := 0, ctype := ChatType.direct }],
   [{ chatId := 0, userId := 1, role := "member" },
    { chatId := 0, userId := 2, role := "member" }],
   [{ id := 5, chatId := 0, senderId := 1, content := "hello", createdAt := 10 },
    { id := 3, chatId := 0, senderId := 2, content := "hi", createdAt := 10 }],
   [], [], [], []⟩

/-- C5 counterexample: the listing of chat 0 is not ordered by
(created_at, id) — the created_at tie is returned in store order 5, 3, and no
id tie-break is applied. -/
theorem listMessages_not_sorted_by_id :
    listMessages dbTiedMessages 0 =
      [{ id := 5, chatId := 0, senderId := 1, content := "hello", createdAt := 10 },
       { id := 3, chatId := 0, senderId := 2, content := "hi", createdAt := 10 }] ∧
    ¬ sortedByCreatedAtId (listMessages dbTiedMessages 0) := by
  constructor
  · decide
  · intro h
    have := (by decide :
      listMessages dbTiedMessages 0 =
        [{ id := 5, chatId := 0, senderId := 1, content := "hello", createdAt := 10 },
         { id := 3, chatId := 0, senderId := 2, content := "hi", createdAt := 10 }])
    rw [this] at h
    rcases List.pairwise_cons.mp h with ⟨hab, -⟩
    have := hab _ (List.mem_singleton.mpr rfl)
    rcases this with h1 | ⟨-, h2⟩
    · exact absurd h1 (by decide)
    · exact absurd h2 (by decide)

/-- C5 amended: the listing is deterministic and sorted by created_at
ascending, and it is a permutation of exactly the chat's stored messages;
ties on created_at keep the store's order, with no tie-break on id. -/
theorem listMessages_sorted_by_createdAt (db : DB) (c : ChatId) :
    (listMessages db c).Sorted msgLe ∧
    List.Perm (listMessages db c) (db.messages.filter fun m => decide (m.chatId = c)) := by
  exact ⟨List.sorted_insertionSort msgLe _, List.perm_insertionSort msgLe _⟩

/-! Friend requests: `handle_friend_request(p_request_id, p_accept)`
(20240321000019_add_friend_request_handler.sql) looks up the request, sets
its status to 'accepted' or 'rejected', and on accept inserts a friendship
row unless one already exists in either (user1, user2) order.  The UPDATE is
subject to the friend_requests CHECK constraint
status IN ('pending', 'accepted', 'declined') from the schema
(20250613042031_mute_thunder.sql); a value outside that set aborts the
function with a check violation. -/

/-- EXISTS check of handle_friend_request: a friendship row in either order. -/
def friendshipExists (l : List Friendship) (a b : UserId) : Bool :=
  l.any fun f => decide ((f.user1 = a ∧ f.user2 = b) ∨ (f.user1 = b ∧ f.user2 = a))

/-- The CHECK constraint on friend_requests.status. -/
def requestStatusAllowed (s : String) : Bool :=
  decide (s = "pending" ∨ s = "accepted" ∨ s = "declined")

/-- UPDATE friend_requests SET status = s WHERE id = reqId. -/
def setRequestStatus (l : List FriendRequest) (reqId : Nat) (s : String) :
    List FriendRequest :=
  l.map fun q => if q.id = reqId then { q with status := s } else q

/-- `handle_friend_request` as the composition of the plpgsql function with
the schema constraints it runs against. -/
def handle_friend_request (db : DB) (reqId : Nat) (p_accept : Bool) : Except DbError DB :=
  match db.friendRequests.find? (fun r => decide (r.id = reqId)) with
  | none => Except.error DbError.notFound
  | some r =>
      let newStatus := if p_accept then "accepted" else "rejected"
      if requestStatusAllowed newStatus then
        let db1 := { db with friendRequests := setRequestStatus db.friendRequests reqId newStatus }
        if p_accept then
          if friendshipExists db1.friendships r.senderId r.receiverId then
            Except.ok db1
          else
            Except.ok { db1 with friendships := db1.friendships ++ [⟨r.senderId, r.receiverId⟩] }
        else
          Except.ok db1
      else
        Except.error DbError.checkViolation

theorem find?_setRequestStatus (l : List FriendRequest) (reqId : Nat) (s : String) :
    (setRequestStatus l reqId s).find? (fun r => decide (r.id = reqId)) =
      ((l.find? fun r => decide (r.id = reqId)).map
        fun q => if q.id = reqId then { q with status := s } else q) := by
  induction l with
  | nil => rfl
  | cons q l ih =>
      by_cases hq : q.id = reqId
      · simp [setRequestStatus, List.find?_cons, hq]
      · simp [setRequestStatus, List.find?_cons, hq] at ih ⊢
        exact ih

theorem friendshipExists_symm (l : List Friendship) (a b : UserId) :
    friendshipExists l a b = friendshipExists l b a := by
  unfold friendshipExists
  congr 1
  funext f
  exact decide_eq_decide.mpr (by tauto)

/-- C6: accepting a friend request inserts the friendship row only when none
exists in either order, so a pair ends up with at most one row: after a
successful accept the friendship exists; if it already existed (in either
order — the scan is symmetric) nothing is inserted; and a second accept of
the same request leaves the friendships unchanged. -/
theorem accept_friend_request_idempotent (db : DB) (reqId : Nat) (r : FriendRequest)
    (db1 db2 : DB)
    (hfind : db.friendRequests.find? (fun q => decide (q.id = reqId)) = some r)
    (h1 : handle_friend_request db reqId true = Except.ok db1) :
    friendshipExists db1.friendships r.senderId r.receiverId = true ∧
    friendshipExists db.friendships r.receiverId r.senderId =
      friendshipExists db.friendships r.senderId r.receiverId ∧
    (friendshipExists db.friendships r.senderId r.receiverId = true →
      db1.friendships = db.friendships) ∧
    (friendshipExists db.friendships r.senderId r.receiverId = false →
      db1.friendships = db.friendships ++ [⟨r.senderId, r.receiverId⟩]) ∧
    (handle_friend_request db1 reqId true = Except.ok db2 →
      db2.friendships = db1.friendships) := by
  have hsymm := friendshipExists_symm db.friendships r.senderId r.receiverId
  by_cases hex : friendshipExists db.friendships r.senderId r.receiverId = true
  · have hdb1 : db1 = { db with
        friendRequests := setRequestStatus db.friendRequests reqId "accepted" } := by
      simp [handle_friend_request, hfind, requestStatusAllowed, hex] at h1
      exact h1.symm
    subst hdb1
    refine ⟨hex, hsymm.symm ▸ rfl, fun _ => rfl, fun hc => absurd hex (by simp [hc]), ?_⟩
    intro h2
    have hfind2 : (setRequestStatus db.friendRequests reqId "accepted").find?
        (fun q => decide (q.id = reqId)) =
        some (if r.id = reqId then { r with status := "accepted" } else r) := by
      rw [find?_setRequestStatus, hfind, Option.map_some']
    simp [handle_friend_request, hfind2, requestStatusAllowed, hex,
      apply_ite FriendRequest.senderId, apply_ite FriendRequest.receiverId] at h2
    rw [← h2]
  · have hex' : friendshipExists db.friendships r.senderId r.receiverId = false := by
      cases hee : friendshipExists db.friendships r.senderId r.receiverId
      · rfl
      · exact absurd hee hex
    have hdb1 : db1 = { db with
        friendRequests := setRequestStatus db.friendRequests reqId "accepted"
        friendships := db.friendships ++ [⟨r.senderId, r.receiverId⟩] } := by
      simp [handle_friend_request, hfind, requestStatusAllowed, hex'] at h1
      exact h1.symm
    subst hdb1
    have hnow : friendshipExists (db.friendships ++ [⟨r.senderId, r.receiverId⟩])
        r.senderId r.receiverId = true := by
      simp [friendshipExists, List.any_append]
    refine ⟨hnow, hsymm.symm ▸ rfl, fun hc => absurd hc (by simp [hex']), fun _ => rfl, ?_⟩
    intro h2
    have hfind2 : (setRequestStatus db.friendRequests reqId "accepted").find?
        (fun q => decide (q.id = reqId)) =
        some (if r.id = reqId then { r with status := "accepted" } else r) := by
      rw [find?_setRequestStatus, hfind, Option.map_some']
    simp [handle_friend_request, hfind2, requestStatusAllowed, hnow,
      apply_ite FriendRequest.senderId, apply_ite FriendRequest.receiverId] at h2
    rw [← h2]

/-- A database holding one pending friend request (id 1) from user 10 to
user 20 and no friendships. -/
def dbPendingRequest : DB :=
  ⟨0, [], [], [], [{ id := 1, senderId := 10, receiverId := 20, status := "pending" }], [], [], []⟩

/-- The state after accepting request 1 of `dbPendingRequest`. -/
def dbAcceptedRequest : DB :=
  ⟨0, [], [], [], [{ id := 1, senderId := 10, receiverId := 20, status := "accepted" }],
   [⟨10, 20⟩], [], []⟩

/-- Witness for `accept_friend_request_idempotent` on the concrete pending
request, accepted twice. -/
theorem accept_friend_request_idempotent_witness :
    friendshipExists dbAcceptedRequest.friendships 10 20 = true ∧
    friendshipExists dbPendingRequest.friendships 20 10 =
      friendshipExists dbPendingRequest.friendships 10 20 ∧
    (friendshipExists dbPendingRequest.friendships 10 20 = true →
      dbAcceptedRequest.friendships = dbPendingRequest.friendships) ∧
    (friendshipExists dbPendingRequest.friendships 10 20 = false →
      dbAcceptedRequest.friendships = dbPendingRequest.friendships ++ [⟨10, 20⟩]) ∧
    (handle_friend_request dbAcceptedRequest 1 true = Except.ok dbAcceptedRequest →
      dbAcceptedRequest.friendships = dbAcceptedRequest.friendships) :=
  accept_friend_request_idempotent dbPendingRequest 1
    { id := 1, senderId := 10, receiverId := 20, status := "pending" }
    dbAcceptedRequest dbAcceptedRequest (by decide) (by decide)

/-- C7: handling a rejection is broken in the code.  The function writes
status 'rejected', but the friend_requests CHECK constraint only admits
'pending', 'accepted' and 'declined', so the update aborts with a check
violation instead of recording 'declined'. -/
theorem reject_friend_request_check_violation :
    handle_friend_request dbPendingRequest 1 false = Except.error DbError.checkViolation ∧
    requestStatusAllowed "rejected" = false ∧
    requestStatusAllowed "declined" = true := by
  decide

/-! Typing status: `update_typing_status(p_chat_id, p_is_typing)`
(src/unnamed/part_008) runs INSERT ... ON CONFLICT (chat_id, user_id)
DO UPDATE as a SECURITY DEFINER function.  It contains no membership check,
and being SECURITY DEFINER it is not filtered by the typing_status RLS
policies (which themselves only compare user_id with auth.uid() for
writes), so it is total: any authenticated caller can set typing state for
any chat. -/

/-- INSERT INTO typing_status ... ON CONFLICT (chat_id, user_id) DO UPDATE. -/
def update_typing_status (db : DB) (caller : UserId) (c : ChatId) (p_is_typing : Bool)
    (now : Nat) : DB :=
  if db.typingStatus.any fun t => decide (t.chatId = c ∧ t.userId = caller) then
    { db with typingStatus := db.typingStatus.map fun t =>
        if t.chatId = c ∧ t.userId = caller then
          { t with isTyping := p_is_typing, lastUpdated := now }
        else t }
  else
    { db with typingStatus := db.typingStatus ++ [⟨c, caller, p_is_typing, now⟩] }

/-- At most one typing row per (chat_id, user_id), the UNIQUE constraint of
the typing_status table. -/
def typingKeysUnique (l : List TypingRow) : Prop :=
  l.Pairwise fun a b => ¬(a.chatId = b.chatId ∧ a.userId = b.userId)

/-- C8 counterexample: user 3 is not a member of chat 0, yet
update_typing_status completes (the operation is total — it has no error
outcome) and records the typing row instead of failing with Forbidden. -/
theorem update_typing_status_no_membership_check :
    memberIn dbDirectFull.chatMembers 0 3 = false ∧
    update_typing_status dbDirectFull 3 0 true 5 =
      { dbDirectFull with typingStatus := [⟨0, 3, true, 5⟩] } := by
  decide

/-- C8 amended: the upsert keyed on (chat, user) preserves key uniqueness, so
after any sequence of calls the typing_status relation holds at most one row
per (chat_id, user_id) pair; no membership check is performed on the way. -/
theorem update_typing_status_unique_keys (db : DB) (caller : UserId) (c : ChatId)
    (b : Bool) (now : Nat) (h : typingKeysUnique db.typingStatus) :
    typingKeysUnique (update_typing_status db caller c b now).typingStatus := by
  by_cases hc : db.typingStatus.any
      (fun t => decide (t.chatId = c ∧ t.userId = caller)) = true
  · simp only [update_typing_status, hc, if_true]
    refine List.Pairwise.map _ ?_ h
    intro a d had
    have hkey : ∀ t : TypingRow,
        ((if t.chatId = c ∧ t.userId = caller then
          { t with isTyping := b, lastUpdated := now } else t) : TypingRow).chatId = t.chatId ∧
        ((if t.chatId = c ∧ t.userId = caller then
          { t with isTyping := b, lastUpdated := now } else t) : TypingRow).userId = t.userId := by
      intro t
      by_cases ht : t.chatId = c ∧ t.userId = caller <;> simp [ht]
    simp only [(hkey a).1, (hkey a).2, (hkey d).1, (hkey d).2]
    exact had
  · have hc' : db.typingStatus.any
        (fun t => decide (t.chatId = c ∧ t.userId = caller)) = false := by
      cases hcc : db.typingStatus.any fun t => decide (t.chatId = c ∧ t.userId = caller)
      · rfl
      · exact absurd hcc hc
    simp only [update_typing_status, hc', Bool.false_eq_true, if_false]
    rw [typingKeysUnique, List.pairwise_append]
    refine ⟨h, List.pairwise_singleton _ _, ?_⟩
    intro a ha t ht
    rcases List.mem_singleton.mp ht with rfl
    have := List.any_eq_false.mp hc' a ha
    simpa using this

/-- Witness for `update_typing_status_unique_keys`: a second call refreshing
an existing typing row keeps the relation duplicate-free. -/
theorem update_typing_status_unique_keys_witness :
    typingKeysUnique (update_typing_status
      { dbDirectFull with typingStatus := [⟨0, 3, true, 5⟩] } 3 0 false 9).typingStatus :=
  update_typing_status_unique_keys
    { dbDirectFull with typingStatus := [⟨0, 3, true, 5⟩] } 3 0 false 9
    (by simp [typingKeysUnique])

/-! Client-side delivery (ChatWindow.tsx): the realtime INSERT handler
appends the pushed message to the list with no id check
(setMessages(prev => [...prev, newMessage])), while the 1-second poll
replaces the whole list with the server result only when that result is
strictly longer than the current list. -/

/-- A message as the subscribing client stores it. -/
structure ClientMessage where
  id : MsgId
  content : String
  deriving DecidableEq

/-- The postgres_changes INSERT handler: unconditional append. -/
def pushDeliver (cur : List ClientMessage) (m : ClientMessage) : List ClientMessage :=
  cur ++ [m]

/-- pollForNewMessages: install the server list only when it is strictly
longer than the current one. -/
def pollDeliver (cur : List ClientMessage) (server : List ClientMessage) :
    List ClientMessage :=
  if cur.length < server.length then server else cur

/-- One delivery event seen by the client. -/
inductive ClientEvent
  | push (m : ClientMessage)
  | poll (server : List ClientMessage)
  deriving DecidableEq

/-- Process one delivery event. -/
def applyEvent (cur : List ClientMessage) : ClientEvent → List ClientMessage
  | ClientEvent.push m => pushDeliver cur m
  | ClientEvent.poll server => pollDeliver cur server

/-- Process a whole interleaving of push and poll deliveries. -/
def applyEvents (cur : List ClientMessage) (evs : List ClientEvent) : List ClientMessage :=
  evs.foldl applyEvent cur

/-- Number of entries of the client list carrying a given message id. -/
def idCount (l : List ClientMessage) (i : MsgId) : Nat :=
  (l.filter fun m => decide (m.id = i)).length

/-- C9 counterexample: the same committed message (id 0) arrives first via a
poll result and then via the push channel; the client list ends with two
entries of id 0 — no de-duplication by message id takes place. -/
theorem client_duplicates_poll_then_push :
    applyEvents [] [ClientEvent.poll [⟨0, "hello"⟩], ClientEvent.push ⟨0, "hello"⟩] =
      [⟨0, "hello"⟩, ⟨0, "hello"⟩] ∧
    idCount (applyEvents []
      [ClientEvent.poll [⟨0, "hello"⟩], ClientEvent.push ⟨0, "hello"⟩]) 0 = 2 := by
  decide

/-- C9 amended: a push delivery always increments the count of its message id
by one (no id check), a poll either installs the server list verbatim or
leaves the client list unchanged, and in the push-before-poll interleaving of
a single message the list ends with exactly one entry. -/
theorem client_delivery_semantics (cur : List ClientMessage) (m : ClientMessage)
    (server : List ClientMessage) :
    idCount (pushDeliver cur m) m.id = idCount cur m.id + 1 ∧
    (pollDeliver cur server = server ∨ pollDeliver cur server = cur) ∧
    applyEvents [] [ClientEvent.push m, ClientEvent.poll [m]] = [m] := by
  refine ⟨?_, ?_, ?_⟩
  · simp [pushDeliver, idCount, List.filter_append]
  · by_cases h : cur.length < server.length
    · exact Or.inl (by simp [pollDeliver, h])
    · exact Or.inr (by simp [pollDeliver, h])
  · simp [applyEvents, applyEvent, pushDeliver, pollDeliver]

/-! Group creation (CreateGroupModal.tsx createGroup): after validating that
at least one and at most 19 friends are selected, it inserts a 'group' chat
row created by the caller, a single chat_members row for the creator with
role 'admin', and one pending group_invitations row per selected friend.
Invited friends get no chat_members row at creation. -/

/-- Client-side validation failures of createGroup. -/
inductive GroupCreateError
  | noMembers
  | tooMany
  deriving DecidableEq

/-- The createGroup handler. -/
def createGroup (db : DB) (creator : UserId) (name desc : String)
    (selected : List UserId) : Except GroupCreateError (ChatId × DB) :=
  if selected.length = 0 then
    Except.error GroupCreateError.noMembers
  else if 19 < selected.length then
    Except.error GroupCreateError.tooMany
  else
    Except.ok (db.nextId, { db with
      nextId := db.nextId + 1
      chats := db.chats ++
        [{ id := db.nextId, ctype := ChatType.group, name := some name,
           description := some desc, createdBy := some creator }]
      chatMembers := db.chatMembers ++
        [{ chatId := db.nextId, userId := creator, role := "admin" }]
      groupInvitations := db.groupInvitations ++
        selected.map fun f =>
          { chatId := db.nextId, inviterId := creator, inviteeId := f, status := "pending" } })

/-- The member rows of one chat. -/
def membersOf (db : DB) (c : ChatId) : List ChatMember :=
  db.chatMembers.filter fun m => decide (m.chatId = c)

/-- The invitation rows of one chat. -/
def invitationsOf (db : DB) (c : ChatId) : List GroupInvitation :=
  db.groupInvitations.filter fun g => decide (g.chatId = c)

/-- C10: a successful group creation leaves the new chat with exactly one
member row — the creator with role 'admin' — and one pending invitation row
per selected friend; a selected friend distinct from the creator has no
membership in the new chat. -/
theorem createGroup_creator_only_member (db : DB) (creator : UserId) (name desc : String)
    (selected : List UserId) (cid : ChatId) (db' : DB) (f : UserId)
    (hfreshm : ∀ m ∈ db.chatMembers, m.chatId < db.nextId)
    (hfreshg : ∀ g ∈ db.groupInvitations, g.chatId < db.nextId)
    (hok : createGroup db creator name desc selected = Except.ok (cid, db'))
    (_hf : f ∈ selected) (hfc : f ≠ creator) :
    membersOf db' cid = [{ chatId := cid, userId := creator, role := "admin" }] ∧
    invitationsOf db' cid = selected.map (fun x =>
      { chatId := cid, inviterId := creator, inviteeId := x, status := "pending" }) ∧
    memberIn db'.chatMembers cid f = false := by
  by_cases h0 : selected.length = 0
  · simp [createGroup, h0] at hok
  · by_cases h19 : 19 < selected.length
    · simp [createGroup, h0, h19] at hok
    · simp only [createGroup, h0, if_false, h19, Except.ok.injEq, Prod.mk.injEq] at hok
      obtain ⟨hcid, hdb⟩ := hok
      subst hcid
      subst hdb
      have hold : ∀ m ∈ db.chatMembers, ¬ m.chatId = db.nextId := by
        intro m hm
        exact Nat.ne_of_lt (hfreshm m hm)
      have holdg : ∀ g ∈ db.groupInvitations, ¬ g.chatId = db.nextId := by
        intro g hg
        exact Nat.ne_of_lt (hfreshg g hg)
      refine ⟨?_, ?_, ?_⟩
      · simp only [membersOf, List.filter_append]
        rw [List.filter_eq_nil_iff.mpr (by intro m hm; simpa using hold m hm)]
        simp
      · simp only [invitationsOf, List.filter_append]
        rw [List.filter_eq_nil_iff.mpr (by intro g hg; simpa using holdg g hg)]
        rw [List.nil_append, List.filter_eq_self.mpr (by intro g hg; simp at hg; rcases hg with ⟨x, -, rfl⟩; simp)]
      · simp only [memberIn, List.any_append, Bool.or_eq_false_iff]
        constructor
        · rw [List.any_eq_false]
          intro m hm
          simp [hold m hm]
        · simp only [List.any_cons, List.any_nil, Bool.or_false, decide_eq_false_iff_not,
            not_and]
          exact fun _ h => hfc h.symm

/-- Witness for `createGroup_creator_only_member`: user 1 creates a group
with friends 2 and 3 selected, starting from the empty database. -/
theorem createGroup_creator_only_member_witness :
    membersOf ((createGroup emptyDB 1 "team" "" [2, 3]).toOption.get rfl).2 0 =
      [{ chatId := 0, userId := 1, role := "admin" }] ∧
    invitationsOf ((createGroup emptyDB 1 "team" "" [2, 3]).toOption.get rfl).2 0 =
      [2, 3].map (fun x =>
        { chatId := 0, inviterId := 1, inviteeId := x, status := "pending" }) ∧
    memberIn ((createGroup emptyDB 1 "team" "" [2, 3]).toOption.get rfl).2.chatMembers 0 2 = false :=
  createGroup_creator_only_member emptyDB 1 "team" "" [2, 3] 0 _ 2
    (by simp [emptyDB]) (by simp [emptyDB]) (by decide) (by decide) (by decide)

end ChatHub
